import Mathlib

/-!
Verification development for the ytani_tcpcmd repository (a line-oriented
TCP command dispatch engine).  The Python sources are shallowly embedded:

* bytes are modelled as `List Nat` (one byte per element) and Python
  strings as Lean `String`;
* fallible Python code is modelled in `Except PyErr`, where raising an
  exception corresponds to `Except.error`;
* the shared command queue is modelled as a list (FIFO), the per-request
  reply channel of a connection as an `Option Nat` channel identifier;
* logging calls (my_logger.get_logger, absent from the dispatch logic
  semantics) and real-time sleeps are semantically inert and dropped;
* the JSON serialisation of a reply performed by send_reply is abstracted
  to the pair (rc, msg) that it serialises.

Definitions follow tcpcmd.py and server.py of src/ytani_tcpcmd; line
numbers in the comments refer to those files.
-/

/-- Result of a Python expression: either a raised exception or a value. -/
inductive PyErr where
  /-- AttributeError for the named missing attribute. -/
  | attributeError (attr : String)
  /-- queue.Full raised by a bounded put. -/
  | full
  /-- any other exception raised inside handler code, with a description. -/
  | exc (desc : String)
  /-- Modelled from the spec: the spec error taxonomy names DuplicateCommand
      for re-registration of an existing command name; the source never
      defines or raises such an error.  The constructor exists only so that
      the actual error of the code can be compared against the one the spec
      names. -/
  | duplicateCommand
  deriving DecidableEq, Repr

/-- The msg part of a reply: Python None, a string, or the list of
[name, help] pairs built by cmd_i_help (tcpcmd.py lines 170-173). -/
inductive Msg where
  | none
  | str (s : String)
  | lst (l : List (String × String))
  deriving DecidableEq, Repr

/-- Reply-code constants of class Cmd (tcpcmd.py lines 81-85). -/
def RC_OK : String := "OK"

/-- RC_NG (tcpcmd.py line 82). -/
def RC_NG : String := "NG"

/-- RC_CONT (tcpcmd.py line 83): queue the command and wait for its result. -/
def RC_CONT : String := "CONTINUE"

/-- RC_ACCEPT (tcpcmd.py line 84): queue the command, do not wait. -/
def RC_ACCEPT : String := "ACCEPT"

/-- RC_NONE (tcpcmd.py line 85). -/
def RC_NONE : String := "NONE"

/-- CMD_HELP (tcpcmd.py line 87). -/
def CMD_HELP : String := "help"

/-- CMD_EXIT (tcpcmd.py line 88). -/
def CMD_EXIT : String := "exit"

/-- CMD_SHUTDOWN (tcpcmd.py line 89).  Note the literal in the source is
the string shutdown9999, not shutdown. -/
def CMD_SHUTDOWN : String := "shutdown9999"

/-- A command handler (func_i or func_q).  Handlers are bound methods of
class Cmd; the only state of self that any of the sample handlers reads is
the name-to-help view of self._cmd (used by cmd_i_help), so that view is
passed as the first argument.  A handler either raises (Except.error) or
returns the pair (rc, msg). -/
def Handler : Type := List (String × String) → List String → Except PyErr (String × Msg)

/-- One descriptor of the command dict self._cmd, in the intended shape
written by add_cmd (tcpcmd.py lines 148-152) and read back at lines 404,
424 and 162: the func_i and func_q callables and the help text (the key
the reader cmd_i_help uses is the literal string help). -/
structure CmdEntry where
  func_i : Option Handler
  func_q : Option Handler
  help : String

/-- self._cmd, a Python dict: an insertion-ordered association list with
unique keys. -/
def Registry : Type := List (String × CmdEntry)

/-- Python dict lookup self._cmd[k] / membership test (first match). -/
def dictGet (reg : Registry) (k : String) : Option CmdEntry :=
  match reg with
  | [] => Option.none
  | (n, e) :: r => if n = k then Option.some e else dictGet r k

/-- Python dict assignment self._cmd[k] = e: replaces the entry in place
if the key exists, otherwise appends. -/
def dictSet (reg : Registry) (k : String) (e : CmdEntry) : Registry :=
  match reg with
  | [] => [(k, e)]
  | (n, e0) :: r => if n = k then (k, e) :: r else (n, e0) :: dictSet r k e

/-- The name-to-help view of self._cmd handed to handlers (see Handler). -/
def helpView (reg : Registry) : List (String × String) :=
  reg.map (fun p => (p.1, p.2.help))

/-- ASCII whitespace bytes, the characters bytes.strip removes
(tab, LF, VT, FF, CR, space). -/
def isWsByte (b : Nat) : Bool :=
  b = 9 || b = 10 || b = 11 || b = 12 || b = 13 || b = 32

/-- bytes.strip(): drop ASCII whitespace bytes from both ends
(tcpcmd.py line 354, .strip() on the received bytes). -/
def bstrip (bs : List Nat) : List Nat :=
  ((bs.dropWhile isWsByte).reverse.dropWhile isWsByte).reverse

/-- Whether an assembled code point is valid for a UTF-8 sequence of the
given byte length: rejects overlong encodings, surrogates and values
beyond U+10FFFF, as the strict Python utf-8 codec does. -/
def utf8ValidCp (len cp : Nat) : Bool :=
  match len with
  | 2 => 0x80 ≤ cp
  | 3 => 0x800 ≤ cp && !(0xD800 ≤ cp && cp ≤ 0xDFFF)
  | 4 => 0x10000 ≤ cp && cp ≤ 0x10FFFF
  | _ => false

/-- Worker loop of the strict UTF-8 decoder: bytes still to read, number
of continuation bytes still expected, total length and accumulator of the
current sequence, output so far (reversed). -/
def utf8DecodeAux : List Nat → Nat → Nat → Nat → List Char → Option (List Char)
  | [], 0, _, _, out => Option.some out.reverse
  | [], _ + 1, _, _, _ => Option.none
  | b :: bs, 0, _, _, out =>
    if b < 0x80 then utf8DecodeAux bs 0 0 0 (Char.ofNat b :: out)
    else if 0xC2 ≤ b && b ≤ 0xDF then utf8DecodeAux bs 1 2 (b - 0xC0) out
    else if 0xE0 ≤ b && b ≤ 0xEF then utf8DecodeAux bs 2 3 (b - 0xE0) out
    else if 0xF0 ≤ b && b ≤ 0xF4 then utf8DecodeAux bs 3 4 (b - 0xF0) out
    else Option.none
  | b :: bs, n + 1, len, acc, out =>
    if 0x80 ≤ b && b ≤ 0xBF then
      let acc2 := acc * 64 + (b - 0x80)
      match n with
      | 0 =>
        if utf8ValidCp len acc2 then utf8DecodeAux bs 0 0 0 (Char.ofNat acc2 :: out)
        else Option.none
      | m + 1 => utf8DecodeAux bs (m + 1) len acc2 out
    else Option.none

/-- Python bytes.decode with the strict utf-8 codec (tcpcmd.py line 379,
server.py line 153): the decoded characters, or failure. -/
def utf8Decode (bs : List Nat) : Option (List Char) :=
  utf8DecodeAux bs 0 0 0 []

/-- ASCII whitespace characters on which Python str.split() with no
argument splits (the model restricts Python whitespace to ASCII; the
inputs of the claims are ASCII). -/
def isPySpace (c : Char) : Bool :=
  c.toNat = 9 || c.toNat = 10 || c.toNat = 11 || c.toNat = 12 || c.toNat = 13 || c.toNat = 32

/-- Worker of pySplit: current input and the reversed current word. -/
def pySplitAux : List Char → List Char → List (List Char)
  | [], acc => if acc.isEmpty then [] else [acc.reverse]
  | c :: cs, acc =>
    if isPySpace c then
      if acc.isEmpty then pySplitAux cs [] else acc.reverse :: pySplitAux cs []
    else pySplitAux cs (c :: acc)

/-- Python str.split() with no argument: splits on runs of whitespace and
never yields an empty token (tcpcmd.py line 389). -/
def pySplit (cs : List Char) : List (List Char) :=
  pySplitAux cs []

/-- decoded_data.split() producing the args list of strings. -/
def tokenize (cs : List Char) : List String :=
  (pySplit cs).map (fun w => String.mk w)

/-- Whether a character is an ASCII decimal digit. -/
def isAsciiDigit (c : Char) : Bool :=
  48 ≤ c.toNat && c.toNat ≤ 57

/-- Drop trailing zero digits of a fractional part. -/
def trimZeros (cs : List Char) : List Char :=
  (cs.reverse.dropWhile (fun c => c = Char.ofNat 48)).reverse

/-- Drop leading zero digits of an integer part, keeping at least one digit. -/
def trimLeadZeros (cs : List Char) : List Char :=
  match cs.dropWhile (fun c => c = Char.ofNat 48) with
  | [] => [Char.ofNat 48]
  | r => r

/-- Models Python float(s) for plain decimal literals (optional leading
minus sign, digits, optional dot and fraction digits), returning the text
that str() prints for the resulting value.  The sample handlers only ever
format the parsed number back into a message, so the float is represented
by that printed text.  float() inputs outside this grammar (exponents,
inf, nan, embedded whitespace) are out of the scope of the claims and are
treated as failures. -/
def pyfloat (s : String) : Option String :=
  let cs := s.data
  let sgn : String := if cs.take 1 = [Char.ofNat 45] then "-" else ""
  let body := if cs.take 1 = [Char.ofNat 45] then cs.drop 1 else cs
  let intPart := body.takeWhile isAsciiDigit
  let rest := body.drop intPart.length
  match rest with
  | [] =>
    if intPart.isEmpty then Option.none
    else Option.some (sgn ++ String.mk (trimLeadZeros intPart) ++ ".0")
  | d :: frac =>
    if d = Char.ofNat 46 && frac.all isAsciiDigit && !(intPart.isEmpty && frac.isEmpty) then
      let f := trimZeros frac
      Option.some (sgn ++ String.mk (trimLeadZeros intPart) ++ "." ++
        (if f.isEmpty then "0" else String.mk f))
    else Option.none

/-- cmd_i_help (tcpcmd.py lines 154-176): with a name argument, the help
text of that command or an NG for an unknown name; with no argument, the
[name, help] list over the whole dict in insertion order. -/
def cmd_i_help : Handler := fun hv args =>
  if 2 ≤ args.length then
    let a1 := args.getD 1 ""
    match hv.lookup a1 with
    | Option.some h => Except.ok (RC_OK, Msg.str h)
    | Option.none => Except.ok (RC_NG, Msg.str (a1 ++ ": no such command"))
  else
    Except.ok (RC_OK, Msg.lst hv)

/-- cmd_i_sleep (tcpcmd.py lines 178-196): pre-checks float(args[1]); an
IndexError or ValueError is caught by the except clause of the handler
itself and turned into NG (the text of the caught exception is abbreviated
to its type name); on success returns CONTINUE. -/
def cmd_i_sleep : Handler := fun _ args =>
  match args.get? 1 with
  | Option.none => Except.ok (RC_NG, Msg.str ((args.headD "") ++ ": IndexError"))
  | Option.some a1 =>
    match pyfloat a1 with
    | Option.none => Except.ok (RC_NG, Msg.str ((args.headD "") ++ ": ValueError"))
    | Option.some f => Except.ok (RC_CONT, Msg.str ("sleep_sec=" ++ f))

/-- cmd_q_sleep (tcpcmd.py lines 198-215): calls float(args[1]) with no
try/except of its own, so a bad argument raises out of the handler; on
success sleeps (time not modelled) and returns OK. -/
def cmd_q_sleep : Handler := fun _ args =>
  match args.get? 1 with
  | Option.none => Except.error (PyErr.exc "IndexError")
  | Option.some a1 =>
    match pyfloat a1 with
    | Option.none => Except.error (PyErr.exc "ValueError")
    | Option.some f => Except.ok (RC_OK, Msg.str ((args.headD "") ++ ": sleep_sec=" ++ f))

/-- cmd_i_exit (tcpcmd.py lines 217-222): returns (OK, None). -/
def cmd_i_exit : Handler := fun _ _ =>
  Except.ok (RC_OK, Msg.none)

/-- cmd_i_shutdown (tcpcmd.py lines 224-247): with no argument ACCEPT at
once; with an argument, float pre-check as in cmd_i_sleep. -/
def cmd_i_shutdown : Handler := fun _ args =>
  if args.length = 1 then Except.ok (RC_ACCEPT, Msg.str "sleep_sec=0")
  else
    match pyfloat (args.getD 1 "") with
    | Option.none => Except.ok (RC_NG, Msg.str ((args.headD "") ++ ": ValueError"))
    | Option.some f => Except.ok (RC_ACCEPT, Msg.str ("sleep_sec=" ++ f))

/-- cmd_q_shutdown (tcpcmd.py lines 249-274): sleeps the requested time
(time not modelled) and returns OK; float(args[1]) is unguarded here. -/
def cmd_q_shutdown : Handler := fun _ args =>
  match args.get? 1 with
  | Option.none => Except.ok (RC_OK, Msg.str ((args.headD "") ++ ": sleep_sec=0"))
  | Option.some a1 =>
    match pyfloat a1 with
    | Option.none => Except.error (PyErr.exc "ValueError")
    | Option.some f => Except.ok (RC_OK, Msg.str ((args.headD "") ++ ": sleep_sec=" ++ f))

/-- Whether class Cmd binds an attribute named HELP_STR.  The class body
(tcpcmd.py lines 64-110) binds DEF_PORT, RC_OK, RC_NG, RC_CONT, RC_ACCEPT,
RC_NONE, CMD_HELP, CMD_EXIT and CMD_SHUTDOWN, and no HELP_STR; neither do
the instances, so the attribute lookup self.HELP_STR fails. -/
def cmdClassHasHELP_STR : Bool := false

/-- Cmd.add_cmd (tcpcmd.py lines 144-152).  The dict literal on lines
148-152 evaluates the key expression self.HELP_STR before the assignment
to self._cmd[name] happens; since class Cmd defines no HELP_STR attribute,
that evaluation raises AttributeError and the dict is left unmodified.
Had the lookup succeeded, the assignment would store the descriptor under
name, silently replacing an existing one (there is no duplicate check). -/
def add_cmd (reg : Registry) (name : String) (fi fq : Option Handler) (help_str : String) :
    Except PyErr Registry :=
  if cmdClassHasHELP_STR then Except.ok (dictSet reg name ⟨fi, fq, help_str⟩)
  else Except.error (PyErr.attributeError "HELP_STR")

/-- Cmd.__init__ (tcpcmd.py lines 104-110): the four add_cmd calls that
build the default registry, starting from the empty dict. -/
def Cmd_init : Except PyErr Registry := do
  let r0 ← add_cmd [] "sleep" (Option.some cmd_i_sleep) (Option.some cmd_q_sleep) "sleep"
  let r1 ← add_cmd r0 CMD_HELP (Option.some cmd_i_help) Option.none "command help"
  let r2 ← add_cmd r1 CMD_EXIT (Option.some cmd_i_exit) Option.none "disconnect"
  let r3 ← add_cmd r2 CMD_SHUTDOWN (Option.some cmd_i_shutdown) (Option.some cmd_q_shutdown)
    "shutdown server"
  pure r3

/-- The command names Cmd.__init__ passes to add_cmd, in call order
(tcpcmd.py lines 105-110). -/
def Cmd_init_names : List String :=
  ["sleep", CMD_HELP, CMD_EXIT, CMD_SHUTDOWN]

/-- The registry the four add_cmd calls of Cmd.__init__ describe, i.e.
the descriptors as they would be stored had the help key of the dict
literal been available; the literal construction itself fails (see
add_cmd and Cmd_init).  Used to exercise the handler and worker on the
built-in command set. -/
def regDefault : Registry :=
  [("sleep", ⟨Option.some cmd_i_sleep, Option.some cmd_q_sleep, "sleep"⟩),
   (CMD_HELP, ⟨Option.some cmd_i_help, Option.none, "command help"⟩),
   (CMD_EXIT, ⟨Option.some cmd_i_exit, Option.none, "disconnect"⟩),
   (CMD_SHUTDOWN, ⟨Option.some cmd_i_shutdown, Option.some cmd_q_shutdown, "shutdown server"⟩)]

/-- One entry of the shared command queue self._cmdq: the args list and
the reply channel (the SimpleQueue of the submitting connection, None on
the ACCEPT path), as put at tcpcmd.py line 447. -/
structure QEntry where
  args : List String
  repq : Option Nat
  deriving DecidableEq, Repr

/-- A post to a reply channel: channel identifier and the (rc, msg) pair
put there (tcpcmd.py line 577 and line 604). -/
abbrev Post : Type := Nat × (String × Msg)

/-- The body of one cmd_worker iteration up to the reply post (tcpcmd.py
lines 551-573): look the command up, call func_q if present (a raised
exception propagates, there is no try/except around the call), or
synthesise the NG for a missing command or missing func_q. -/
def workerStep (reg : Registry) (e : QEntry) : Except PyErr (String × Msg) :=
  let a0 := e.args.headD ""
  match dictGet reg a0 with
  | Option.some ent =>
    match ent.func_q with
    | Option.some f => f (helpView reg) e.args
    | Option.none => Except.ok (RC_NG, Msg.str (a0 ++ ": no such func_q .. ignored"))
  | Option.none => Except.ok (RC_NG, Msg.str (a0 ++ ": no such command .. ignored"))

/-- Whether a queue entry triggers the shutdown check of the worker
(tcpcmd.py line 580): its command name equals CMD_SHUTDOWN. -/
def isShutEntry (e : QEntry) : Bool :=
  e.args.headD "" = CMD_SHUTDOWN

/-- CmdServerApp.cmd_worker (tcpcmd.py lines 545-588) run over the queue
contents: consumes entries in FIFO order, posts (rc, msg) to the reply
channel of each consumed entry when present, and stops after the first
entry named CMD_SHUTDOWN, returning the posts made and the entries left
in the queue.  An exception raised by a queued handler propagates out of
the loop (the worker thread dies).  The blocking get of an empty queue
ends the modelled run with an empty leftover. -/
def cmd_worker (reg : Registry) : List QEntry → Except PyErr (List Post × List QEntry)
  | [] => Except.ok ([], [])
  | e :: rest =>
    match workerStep reg e with
    | Except.error err => Except.error err
    | Except.ok v =>
      let post : List Post := match e.repq with
        | Option.some c => [(c, v)]
        | Option.none => []
      if isShutEntry e then Except.ok (post, rest)
      else
        match cmd_worker reg rest with
        | Except.error err => Except.error err
        | Except.ok pr => Except.ok (post ++ pr.1, pr.2)

/-- CmdServerApp.end (tcpcmd.py lines 598-607): drain the queue, putting
(NG, terminated) to every drained entry that has a reply channel. -/
def drainPosts (q : List QEntry) : List Post :=
  q.filterMap (fun e => e.repq.map (fun c => (c, (RC_NG, Msg.str "terminated"))))

/-- The worker run followed by the drain of CmdServerApp.end: every post
made to a reply channel over the whole server life. -/
def serverRun (reg : Registry) (q : List QEntry) : Except PyErr (List Post) :=
  match cmd_worker reg q with
  | Except.error err => Except.error err
  | Except.ok pr => Except.ok (pr.1 ++ drainPosts pr.2)

/-- The prefix of the queue the worker consumes (up to and including the
first CMD_SHUTDOWN entry, or everything). -/
def consumedPart : List QEntry → List QEntry
  | [] => []
  | e :: rest => if isShutEntry e then [e] else e :: consumedPart rest

/-- The entries left in the queue when the worker stops, drained by end(). -/
def leftoverPart : List QEntry → List QEntry
  | [] => []
  | e :: rest => if isShutEntry e then rest else leftoverPart rest

/-- The post the worker makes for one consumed entry, if any. -/
def genuinePost (reg : Registry) (e : QEntry) : Option Post :=
  match e.repq, workerStep reg e with
  | Option.some c, Except.ok v => Option.some (c, v)
  | _, _ => Option.none

/-- The posts of the worker over a list of consumed entries. -/
def okPosts (reg : Registry) (l : List QEntry) : List Post :=
  l.filterMap (genuinePost reg)

/-- The reply channels occurring in a queue, in order. -/
def chans (q : List QEntry) : List Nat :=
  q.filterMap QEntry.repq

/-- Per-connection state of CmdServerHandler: the _active flag, the reply
channel _myq (the SimpleQueue built in __init__ at tcpcmd.py line 293,
identified by a channel number; None once line 421 has run), and the
function-scoped local variable msg of handle(), which survives from one
loop iteration to the next.  Python would raise UnboundLocalError were
msg read before its first assignment; that corner is reachable only for a
command with no func_i handled before any func_i ran, which no claim
touches, and the initial value None stands in for the unbound state. -/
structure ConnSt where
  active : Bool
  myq : Option Nat
  msgv : Msg
  deriving DecidableEq, Repr

/-- Observable actions of one handle() iteration: a reply written to the
client (send_reply, the JSON layer abstracted to the rc and msg pair), an
entry put on the shared command queue, and a blocking read of the reply
channel consuming oracle index k. -/
inductive HEv where
  | sent (rc : String) (msg : Msg)
  | enq (args : List String) (repq : Option Nat)
  | wait (k : Nat)
  deriving DecidableEq, Repr

/-- Stand-in text for the message the decode-failure branch formats at
tcpcmd.py line 381 as percent of (type(e), e); the exception detail text
is abstracted, the reply code NG and the break are what the branch does. -/
def decode_err_note : String := "UnicodeDecodeError .. ignored"

/-- The queue-depth check and put of handle() (tcpcmd.py lines 437-452):
reads qsize once, rejects with the busy NG when the observed depth
exceeds 100, otherwise appends the entry (the put of line 447 targets the
unbounded queue.Queue of line 536 and cannot fail).  Returns the new
queue and the busy reply event, if any. -/
def check_and_put (q : List QEntry) (args : List String) (myq : Option Nat) :
    List QEntry × Option HEv :=
  if q.length > 100 then
    (q, Option.some (HEv.sent RC_NG (Msg.str ("qsize=" ++ toString q.length ++ ": server busy"))))
  else
    (q ++ [⟨args, myq⟩], Option.none)

/-- Lines 423-469 of handle(): the func_q check, queueing, and the reply
for the queued stage.  msg is the current value of the msg local. -/
def queuePhase (st : ConnSt) (q : List QEntry) (orc : Nat → String × Msg) (k : Nat)
    (args : List String) (ent : CmdEntry) : ConnSt × List QEntry × Nat × List HEv :=
  match ent.func_q with
  | Option.none =>
    let msg2 := (args.headD "") ++ ": func_q is None .. ignored"
    match st.msgv with
    | Msg.none => (st, q, k, [HEv.sent RC_OK (Msg.str msg2)])
    | m => (st, q, k, [HEv.sent RC_OK m])
  | Option.some _ =>
    match check_and_put q args st.myq with
    | (_, Option.some busyEv) => (st, q, k, [busyEv])
    | (q2, Option.none) =>
      match st.myq with
      | Option.none => (st, q2, k, [HEv.enq args Option.none, HEv.sent RC_OK st.msgv])
      | Option.some c =>
        (st, q2, k + 1,
          [HEv.enq args (Option.some c), HEv.wait k, HEv.sent (orc k).1 (orc k).2])

/-- One iteration of CmdServerHandler.handle (tcpcmd.py lines 346-469)
for a successfully received chunk of bytes in_data: strip, the
disconnect checks, utf-8 decode (NG and break on failure, line 384),
tokenize, the unknown-command NG, the func_i call (an exception raised by
func_i propagates out of handle, there is no try/except around line 409),
the exit flag, the CONTINUE and ACCEPT branches, then queuePhase.  orc is
the oracle giving the value a blocking read of the reply channel returns,
k the next oracle index.  Returns the new connection state, queue, oracle
index and the events of the iteration. -/
def handleInput (reg : Registry) (st : ConnSt) (q : List QEntry) (orc : Nat → String × Msg)
    (k : Nat) (in_data : List Nat) :
    Except PyErr (ConnSt × List QEntry × Nat × List HEv) :=
  let d := bstrip in_data
  if d.length = 0 || d = [4] then
    Except.ok ({ st with active := false }, q, k, [])
  else
    match utf8Decode d with
    | Option.none =>
      Except.ok ({ st with active := false }, q, k,
        [HEv.sent RC_NG (Msg.str decode_err_note)])
    | Option.some cs =>
      match tokenize cs with
      | [] =>
        Except.ok ({ st with active := false }, q, k, [HEv.sent RC_NG (Msg.str "no command")])
      | a0 :: rest =>
        match dictGet reg a0 with
        | Option.none =>
          Except.ok (st, q, k,
            [HEv.sent RC_NG (Msg.str (a0 ++ ": no such command .. ignored"))])
        | Option.some ent =>
          match ent.func_i with
          | Option.none =>
            let o := queuePhase st q orc k (a0 :: rest) ent
            Except.ok o
          | Option.some fi =>
            match fi (helpView reg) (a0 :: rest) with
            | Except.error err => Except.error err
            | Except.ok (rc, msg) =>
              let st1 := { st with
                active := if a0 = CMD_EXIT then false else st.active
                msgv := msg }
              if rc ≠ RC_CONT && rc ≠ RC_ACCEPT then
                Except.ok (st1, q, k, [HEv.sent rc msg])
              else
                let st2 := if rc = RC_ACCEPT then { st1 with myq := Option.none } else st1
                let o := queuePhase st2 q orc k (a0 :: rest) ent
                Except.ok o

/-- The while loop of handle() over a list of received inputs: each input
is processed while _active holds; once _active is false the loop exits
and the remaining inputs are not consumed. -/
def handlerRun (reg : Registry) (orc : Nat → String × Msg) :
    ConnSt → List QEntry → Nat → List (List Nat) →
    Except PyErr (ConnSt × List QEntry × Nat × List HEv)
  | st, q, k, [] => Except.ok (st, q, k, [])
  | st, q, k, d :: ds =>
    if st.active then
      match handleInput reg st q orc k d with
      | Except.error err => Except.error err
      | Except.ok (st1, q1, k1, evs) =>
        match handlerRun reg orc st1 q1 k1 ds with
        | Except.error err => Except.error err
        | Except.ok (st2, q2, k2, evs2) => Except.ok (st2, q2, k2, evs ++ evs2)
    else Except.ok (st, q, k, [])

/-- Outcome of one iteration of the plain Handler.handle of server.py. -/
inductive SrvRes where
  | closed
  | continued
  | forwarded (data : List Char)
  deriving DecidableEq, Repr

/-- The character extraction of Handler.handle in server.py (lines
162-167): keep exactly the characters at or above 0x20, removing every
control character. -/
def srvPrintable (cs : List Char) : List Char :=
  cs.filter (fun c => 0x20 ≤ c.toNat)

/-- One iteration of Handler.handle in server.py (lines 133-176) for a
received chunk: on decode failure the input is logged and ignored and the
loop continues; on success srvPrintable removes the control characters;
zero remaining characters are treated as a disconnect; otherwise the
cleaned string is forwarded to the worker. -/
def srvHandleInput (net_data : List Nat) : SrvRes :=
  match utf8Decode net_data with
  | Option.none => SrvRes.continued
  | Option.some cs =>
    let data := srvPrintable cs
    if data.length = 0 then SrvRes.closed else SrvRes.forwarded data

/-- An operation on the shared command queue: a put from some connection
(tcpcmd.py line 447) or the blocking get of the single worker thread
(line 551).  Exactly one worker thread exists (created once at lines
542-543), so the take operations all belong to that one consumer and each
taken entry is fully executed before the next take happens. -/
inductive QOp where
  | submit (e : QEntry)
  | take
  deriving Repr

/-- FIFO queue semantics of queue.Queue under the operations above; the
state is the pending queue and the log of entries the worker has taken
(in execution order).  A take of an empty queue blocks, leaving the state
unchanged. -/
def qstep : List QEntry × List QEntry → QOp → List QEntry × List QEntry
  | (p, l), QOp.submit e => (p ++ [e], l)
  | ([], l), QOp.take => ([], l)
  | (e :: p, l), QOp.take => (p, l ++ [e])

/-- Run a sequence of queue operations from a given state. -/
def qrun (s : List QEntry × List QEntry) (ops : List QOp) : List QEntry × List QEntry :=
  ops.foldl qstep s

/-- The entries submitted by a sequence of operations, in submission order. -/
def submittedOf (ops : List QOp) : List QEntry :=
  ops.filterMap (fun o => match o with
    | QOp.submit e => Option.some e
    | QOp.take => Option.none)

/-- A Python queue.Queue: maxsize (0 models the no-argument constructor
of tcpcmd.py line 536, i.e. an infinite queue; Python treats any maxsize
at most 0 as infinite) and the items. -/
structure PyQueue (α : Type) where
  maxsize : Nat
  items : List α

/-- queue.Queue.put(x, block=False), i.e. put_nowait: raises Full exactly
when 0 < maxsize and the queue already holds at least maxsize items. -/
def PyQueue.put_nowait {α : Type} (q : PyQueue α) (x : α) : Except PyErr (PyQueue α) :=
  if 0 < q.maxsize && q.maxsize ≤ q.items.length then Except.error PyErr.full
  else Except.ok ⟨q.maxsize, q.items ++ [x]⟩

/-- The submission state of one connection inside the two-step submit of
handle(): the args and reply channel it would enqueue, whether its qsize
check (line 438) has passed, and whether its put (line 447) has run. -/
structure RaceConn where
  args : List String
  ch : Option Nat
  passed : Bool
  put_done : Bool
  deriving DecidableEq, Repr

/-- An atomic step of some connection in the submission race: its qsize
check or its put.  The two lines run with no lock between them, so steps
of different connections interleave freely. -/
inductive RaceOp where
  | check (i : Nat)
  | put (i : Nat)
  deriving Repr

/-- Interleaving semantics of the check-then-put submission: a check reads
the current depth and passes iff it is at most 100 (line 439 rejects on
qsize > 100); a put appends the entry and is enabled only after the check
of the same connection passed. -/
def raceStep : List QEntry × List RaceConn → RaceOp → List QEntry × List RaceConn
  | (q, cs), RaceOp.check i =>
    match cs.get? i with
    | Option.none => (q, cs)
    | Option.some c =>
      if c.passed || c.put_done then (q, cs)
      else if q.length > 100 then (q, cs)
      else (q, cs.set i { c with passed := true })
  | (q, cs), RaceOp.put i =>
    match cs.get? i with
    | Option.none => (q, cs)
    | Option.some c =>
      if c.passed && !c.put_done then (q ++ [⟨c.args, c.ch⟩], cs.set i { c with put_done := true })
      else (q, cs)

/-- Run a schedule of race operations. -/
def raceRun (s : List QEntry × List RaceConn) (ops : List RaceOp) : List QEntry × List RaceConn :=
  ops.foldl raceStep s

/-- A reply-channel oracle used by the concrete runs: every blocking read
would return (OK, None).  The runs below never reach a blocking read. -/
def orcD : Nat → String × Msg := fun _ => (RC_OK, Msg.none)

/-- A fresh connection state: _active set by setup(), the SimpleQueue of
__init__ as channel 0, the msg local still unset. -/
def st0 : ConnSt := ⟨true, Option.some 0, Msg.none⟩

/-- The bytes of the line shutdown. -/
def bytesShutdown : List Nat := [115, 104, 117, 116, 100, 111, 119, 110]

/-- The bytes of the line shutdown9999. -/
def bytesShut9999 : List Nat := bytesShutdown ++ [57, 57, 57, 57]

/-- The bytes of the line sleep 1. -/
def bytesSleep1 : List Nat := [115, 108, 101, 101, 112, 32, 49]

/-- A registry with a single queued-only command whose handler raises. -/
def boomReg : Registry :=
  [("boom", ⟨Option.none, Option.some (fun _ _ => Except.error (PyErr.exc "boom")), "b"⟩)]

/-- A queue holding one pending boom entry with a waiting reply channel. -/
def boomQ : List QEntry := [⟨["boom"], Option.some 0⟩]

/-- A registry with one immediate-only command whose handler reflects the
args it was called with into its reply, making the received argument list
observable. -/
def reflectReg : Registry :=
  [("cmd", ⟨Option.some (fun _ args => Except.ok (RC_OK, Msg.lst (args.map (fun a => (a, a))))),
    Option.none, "c"⟩)]

/-- The bytes of the line cmd a&#1;b: a 0x01 control byte embedded in the
second token. -/
def bytesCtrl : List Nat := [99, 109, 100, 32, 97, 1, 98]

/-- The second token of that line as a string: a, 0x01, b. -/
def ctrlArg : String := String.mk [Char.ofNat 97, Char.ofNat 1, Char.ofNat 98]

/-- A registry with a single queued-only command with a trivial handler. -/
def qonlyReg : Registry :=
  [("qq", ⟨Option.none, Option.some (fun _ _ => Except.ok (RC_OK, Msg.none)), "q"⟩)]

/-- The bytes of the line qq. -/
def bytesQq : List Nat := [113, 113]

/-- The shared command queue as constructed at tcpcmd.py line 536:
queue.Queue() with the default maxsize, i.e. no capacity bound. -/
def cmdq_init : PyQueue QEntry := ⟨0, []⟩

/-- A queue already holding 100 pending entries. -/
def raceQ0 : List QEntry := List.replicate 100 ⟨["x"], Option.none⟩

/-- Two connections about to submit. -/
def raceConns : List RaceConn :=
  [⟨["a"], Option.none, false, false⟩, ⟨["b"], Option.none, false, false⟩]

/-- A schedule in which both connections pass the depth check before
either has put. -/
def raceSched : List RaceOp :=
  [RaceOp.check 0, RaceOp.check 1, RaceOp.put 0, RaceOp.put 1]

/-!  Helper lemmas (shared between the claim theorems). -/

theorem pySplitAux_no_space :
    ∀ (cs acc : List Char), (∀ c ∈ acc, isPySpace c = false) →
      ∀ w ∈ pySplitAux cs acc, ∀ c ∈ w, isPySpace c = false := by
  intro cs
  induction cs with
  | nil =>
    intro acc hacc w hw c hc
    unfold pySplitAux at hw
    by_cases he : acc.isEmpty
    · simp [he] at hw
    · simp [he] at hw
      subst hw
      exact hacc c (List.mem_reverse.mp hc)
  | cons d ds ih =>
    intro acc hacc w hw c hc
    unfold pySplitAux at hw
    cases hsp : isPySpace d with
    | true =>
      rw [hsp] at hw
      simp only [if_true] at hw
      by_cases he : acc.isEmpty
      · simp [he] at hw
        exact ih [] (by simp) w hw c hc
      · simp [he] at hw
        cases hw with
        | inl h =>
          subst h
          exact hacc c (List.mem_reverse.mp hc)
        | inr h => exact ih [] (by simp) w h c hc
    | false =>
      rw [hsp] at hw
      simp only [Bool.false_eq_true, if_false] at hw
      refine ih (d :: acc) ?_ w hw c hc
      intro x hx
      cases hx with
      | head => exact hsp
      | tail _ h => exact hacc x h

theorem pySplit_no_space (cs : List Char) :
    ∀ w ∈ pySplit cs, ∀ c ∈ w, isPySpace c = false :=
  pySplitAux_no_space cs [] (by simp)

theorem consumedPart_cons (e : QEntry) (rest : List QEntry) :
    consumedPart (e :: rest) = if isShutEntry e then [e] else e :: consumedPart rest := rfl

theorem leftoverPart_cons (e : QEntry) (rest : List QEntry) :
    leftoverPart (e :: rest) = if isShutEntry e then rest else leftoverPart rest := rfl

theorem consumed_append_leftover (q : List QEntry) :
    consumedPart q ++ leftoverPart q = q := by
  induction q with
  | nil => rfl
  | cons e rest ih =>
    rw [consumedPart_cons, leftoverPart_cons]
    cases h : isShutEntry e with
    | true => simp
    | false => simp [ih]

theorem okPosts_cons (reg : Registry) (e : QEntry) (l : List QEntry) :
    okPosts reg (e :: l) = (genuinePost reg e).toList ++ okPosts reg l := by
  unfold okPosts
  rw [List.filterMap_cons]
  cases genuinePost reg e <;> simp

theorem genuinePost_of_ok (reg : Registry) (e : QEntry) (v : String × Msg)
    (hv : workerStep reg e = Except.ok v) :
    genuinePost reg e = e.repq.map (fun c => (c, v)) := by
  unfold genuinePost
  rw [hv]
  cases e.repq <;> rfl

theorem cmd_worker_eq (reg : Registry) :
    ∀ q : List QEntry, (∀ e ∈ q, (workerStep reg e).isOk = true) →
      cmd_worker reg q = Except.ok (okPosts reg (consumedPart q), leftoverPart q) := by
  intro q
  induction q with
  | nil => intro _; rfl
  | cons e rest ih =>
    intro h
    have he := h e (List.mem_cons_self e rest)
    obtain ⟨v, hv⟩ : ∃ v, workerStep reg e = Except.ok v := by
      cases hws : workerStep reg e with
      | ok v => exact ⟨v, rfl⟩
      | error err =>
        rw [hws] at he
        simp [Except.isOk, Except.toBool] at he
    have hgp := genuinePost_of_ok reg e v hv
    unfold cmd_worker
    rw [hv]
    cases hsh : isShutEntry e with
    | true =>
      simp only [hsh, if_true]
      rw [consumedPart_cons, leftoverPart_cons, hsh]
      simp only [if_true, okPosts_cons, hgp]
      cases e.repq <;> simp [okPosts]
    | false =>
      simp only [hsh, Bool.false_eq_true, if_false]
      rw [ih (fun x hx => h x (List.mem_cons_of_mem e hx))]
      rw [consumedPart_cons, leftoverPart_cons, hsh]
      simp only [Bool.false_eq_true, if_false, okPosts_cons, hgp]
      cases e.repq <;> simp

theorem chans_cons (e : QEntry) (l : List QEntry) :
    chans (e :: l) = (e.repq).toList ++ chans l := by
  unfold chans
  rw [List.filterMap_cons]
  cases e.repq <;> simp

theorem chans_append (a b : List QEntry) :
    chans (a ++ b) = chans a ++ chans b := by
  unfold chans
  exact List.filterMap_append a b QEntry.repq

theorem countP_okPosts (reg : Registry) (c : Nat) :
    ∀ l : List QEntry, (∀ e ∈ l, (workerStep reg e).isOk = true) →
      (okPosts reg l).countP (fun p => p.1 == c) = (chans l).count c := by
  intro l
  induction l with
  | nil => intro _; rfl
  | cons e rest ih =>
    intro h
    have he := h e (List.mem_cons_self e rest)
    obtain ⟨v, hv⟩ : ∃ v, workerStep reg e = Except.ok v := by
      cases hws : workerStep reg e with
      | ok v => exact ⟨v, rfl⟩
      | error err =>
        rw [hws] at he
        simp [Except.isOk, Except.toBool] at he
    have htl := ih (fun x hx => h x (List.mem_cons_of_mem e hx))
    rw [okPosts_cons, genuinePost_of_ok reg e v hv, chans_cons]
    cases e.repq with
    | none => simpa using htl
    | some c0 =>
      by_cases hc : c0 = c
      · subst hc
        simp [List.countP_cons, List.count_cons, htl]
      · simp [List.countP_cons, List.count_cons, htl, hc, Ne.symm hc]

theorem countP_drainPosts (c : Nat) :
    ∀ l : List QEntry,
      (drainPosts l).countP (fun p => p.1 == c) = (chans l).count c := by
  intro l
  induction l with
  | nil => rfl
  | cons e rest ih =>
    have hdc : drainPosts (e :: rest) =
        (e.repq.map (fun c0 => ((c0, (RC_NG, Msg.str "terminated")) : Post))).toList ++
          drainPosts rest := by
      unfold drainPosts
      rw [List.filterMap_cons]
      cases e.repq <;> simp
    rw [hdc, chans_cons]
    cases e.repq with
    | none => simpa using ih
    | some c0 =>
      by_cases hc : c0 = c
      · subst hc
        simp [List.countP_cons, List.count_cons, ih]
      · simp [List.countP_cons, List.count_cons, ih, hc, Ne.symm hc]

theorem chan_mem (q : List QEntry) (e : QEntry) (c : Nat)
    (hm : e ∈ q) (hc : e.repq = Option.some c) : c ∈ chans q := by
  unfold chans
  exact List.mem_filterMap.mpr ⟨e, hm, by rw [hc]⟩

theorem chan_entry_unique :
    ∀ (q : List QEntry), (chans q).Nodup →
      ∀ e1 e2 c, e1 ∈ q → e2 ∈ q →
        e1.repq = Option.some c → e2.repq = Option.some c → e1 = e2 := by
  intro q
  induction q with
  | nil => intro _ e1 e2 c h1; exact absurd h1 (List.not_mem_nil e1)
  | cons x rest ih =>
    intro hnd e1 e2 c h1 h2 hr1 hr2
    have hnd2 : (chans rest).Nodup := by
      rw [chans_cons] at hnd
      exact (List.nodup_append.mp hnd).2.1
    cases h1 with
    | head =>
      cases h2 with
      | head => rfl
      | tail _ h2t =>
        exfalso
        have hcm : c ∈ chans rest := chan_mem rest e2 c h2t hr2
        rw [chans_cons, hr1] at hnd
        simp only [Option.toList_some, List.singleton_append, List.nodup_cons] at hnd
        exact hnd.1 hcm
    | tail _ h1t =>
      cases h2 with
      | head =>
        exfalso
        have hcm : c ∈ chans rest := chan_mem rest e1 c h1t hr1
        rw [chans_cons, hr2] at hnd
        simp only [Option.toList_some, List.singleton_append, List.nodup_cons] at hnd
        exact hnd.1 hcm
      | tail _ h2t => exact ih hnd2 e1 e2 c h1t h2t hr1 hr2

theorem mem_okPosts (reg : Registry) (l : List QEntry) (p : Post) (hp : p ∈ okPosts reg l) :
    ∃ e ∈ l, e.repq = Option.some p.1 ∧ workerStep reg e = Except.ok p.2 := by
  obtain ⟨e, hel, hge⟩ := List.mem_filterMap.mp hp
  refine ⟨e, hel, ?_⟩
  unfold genuinePost at hge
  cases hr : e.repq with
  | none =>
    rw [hr] at hge
    exact Option.noConfusion hge
  | some c0 =>
    cases hws : workerStep reg e with
    | error err =>
      rw [hr, hws] at hge
      exact Option.noConfusion hge
    | ok v =>
      rw [hr, hws] at hge
      have h2 : ((c0, v) : Post) = p := Option.some.inj hge
      rw [← h2]
      exact ⟨rfl, rfl⟩

theorem mem_drainPosts (l : List QEntry) (p : Post) (hp : p ∈ drainPosts l) :
    p.2 = (RC_NG, Msg.str "terminated") := by
  obtain ⟨e, _, hge⟩ := List.mem_filterMap.mp hp
  cases hr : e.repq with
  | none =>
    rw [hr] at hge
    exact Option.noConfusion hge
  | some c0 =>
    rw [hr] at hge
    have h2 : ((c0, (RC_NG, Msg.str "terminated")) : Post) = p := Option.some.inj hge
    rw [← h2]

theorem serverRun_delivery (reg : Registry) (q : List QEntry)
    (hok : ∀ e ∈ q, (workerStep reg e).isOk = true)
    (hnd : (chans q).Nodup) :
    ∃ posts, serverRun reg q = Except.ok posts ∧
      ∀ e ∈ q, ∀ c, e.repq = Option.some c →
        posts.countP (fun p => p.1 == c) = 1 ∧
        ∀ p ∈ posts, p.1 = c →
          workerStep reg e = Except.ok p.2 ∨ p.2 = (RC_NG, Msg.str "terminated") := by
  have hcons : ∀ x ∈ consumedPart q, x ∈ q := by
    intro x hx
    rw [← consumed_append_leftover q]
    exact List.mem_append_left _ hx
  have hw := cmd_worker_eq reg q hok
  refine ⟨okPosts reg (consumedPart q) ++ drainPosts (leftoverPart q), ?_, ?_⟩
  · unfold serverRun
    rw [hw]
  · intro e he c hc
    constructor
    · rw [List.countP_append,
        countP_okPosts reg c (consumedPart q) (fun x hx => hok x (hcons x hx)),
        countP_drainPosts c (leftoverPart q), ← List.count_append, ← chans_append,
        consumed_append_leftover]
      exact List.count_eq_one_of_mem hnd (chan_mem q e c he hc)
    · intro p hp hpc
      cases List.mem_append.mp hp with
      | inl hmem =>
        left
        obtain ⟨e2, he2, hr2, hws2⟩ := mem_okPosts reg (consumedPart q) p hmem
        have heq : e2 = e :=
          chan_entry_unique q hnd e2 e c (hcons e2 he2) he (by rw [hr2, hpc]) hc
        rw [← heq]
        exact hws2
      | inr hmem =>
        right
        exact mem_drainPosts (leftoverPart q) p hmem

theorem queuePhase_state (st : ConnSt) (q : List QEntry) (orc : Nat → String × Msg)
    (k : Nat) (args : List String) (ent : CmdEntry) :
    (queuePhase st q orc k args ent).1 = st := by
  unfold queuePhase check_and_put
  cases ent.func_q with
  | none => cases st.msgv <;> rfl
  | some g =>
    by_cases hl : q.length > 100
    · simp [hl]
    · simp only [hl, if_false]
      cases st.myq <;> rfl

theorem handleInput_myq (reg : Registry) (st : ConnSt) (q : List QEntry)
    (orc : Nat → String × Msg) (k : Nat) (d : List Nat) (st' : ConnSt)
    (q' : List QEntry) (k' : Nat) (evs : List HEv)
    (h : handleInput reg st q orc k d = Except.ok (st', q', k', evs)) :
    st'.myq = st.myq ∨ st'.myq = Option.none := by
  unfold handleInput at h
  simp only [] at h
  split at h
  · simp only [Except.ok.injEq, Prod.mk.injEq] at h
    left
    rw [← h.1]
  · split at h
    · simp only [Except.ok.injEq, Prod.mk.injEq] at h
      left
      rw [← h.1]
    · split at h
      · simp only [Except.ok.injEq, Prod.mk.injEq] at h
        left
        rw [← h.1]
      · split at h
        · simp only [Except.ok.injEq, Prod.mk.injEq] at h
          left
          rw [← h.1]
        · split at h
          · -- func_i is None: queuePhase on st
            simp only [Except.ok.injEq] at h
            have h1 : st = st' := by
              have h2 := congrArg Prod.fst h
              rw [queuePhase_state] at h2
              exact h2
            left
            rw [← h1]
          · -- func_i present
            split at h
            · exact Except.noConfusion h
            · -- fi returned ok (rc, msg)
              split at h
              · -- rc neither CONTINUE nor ACCEPT
                simp only [Except.ok.injEq, Prod.mk.injEq] at h
                left
                rw [← h.1]
              · -- CONTINUE or ACCEPT: queuePhase on st2
                simp only [Except.ok.injEq] at h
                have h2 := congrArg Prod.fst h
                rw [queuePhase_state] at h2
                split at h2
                · right
                  have h3 := congrArg ConnSt.myq h2
                  exact h3.symm
                · left
                  have h3 := congrArg ConnSt.myq h2
                  exact h3.symm

theorem handleInput_cont_some (reg : Registry) (st : ConnSt) (q : List QEntry)
    (orc : Nat → String × Msg) (k : Nat) (d : List Nat) (cs : List Char)
    (a0 : String) (rest : List String) (ent : CmdEntry) (fi g : Handler) (m : Msg) (c : Nat)
    (h0 : bstrip d ≠ [])
    (h4 : bstrip d ≠ [4])
    (hdec : utf8Decode (bstrip d) = Option.some cs)
    (htok : tokenize cs = a0 :: rest)
    (hlook : dictGet reg a0 = Option.some ent)
    (hfi : ent.func_i = Option.some fi)
    (hval : fi (helpView reg) (a0 :: rest) = Except.ok (RC_CONT, m))
    (hexit : a0 ≠ CMD_EXIT)
    (hfq : ent.func_q = Option.some g)
    (hlen : ¬ q.length > 100)
    (hmyq : st.myq = Option.some c) :
    handleInput reg st q orc k d =
      Except.ok ({ st with msgv := m }, q ++ [⟨a0 :: rest, Option.some c⟩], k + 1,
        [HEv.enq (a0 :: rest) (Option.some c), HEv.wait k,
         HEv.sent (orc k).1 (orc k).2]) := by
  have hc1 : (decide ((bstrip d).length = 0) || decide (bstrip d = [4])) = false := by
    simp [List.length_eq_zero, h0, h4]
  simp only [handleInput, hc1, Bool.false_eq_true, if_false, hdec, htok, hlook, hfi, hval,
    queuePhase, check_and_put, hfq, hlen, hmyq, hexit, RC_CONT, RC_ACCEPT, CMD_EXIT,
    if_true, ne_eq, ite_false, ite_true]
  have hca : ¬ (("CONTINUE" : String) = "ACCEPT") := by decide
  have hexit2 : ¬ (a0 = "exit") := by simpa [CMD_EXIT] using hexit
  simp [hca, hexit2]

theorem handleInput_cont_none (reg : Registry) (st : ConnSt) (q : List QEntry)
    (orc : Nat → String × Msg) (k : Nat) (d : List Nat) (cs : List Char)
    (a0 : String) (rest : List String) (ent : CmdEntry) (fi g : Handler) (m : Msg)
    (h0 : bstrip d ≠ [])
    (h4 : bstrip d ≠ [4])
    (hdec : utf8Decode (bstrip d) = Option.some cs)
    (htok : tokenize cs = a0 :: rest)
    (hlook : dictGet reg a0 = Option.some ent)
    (hfi : ent.func_i = Option.some fi)
    (hval : fi (helpView reg) (a0 :: rest) = Except.ok (RC_CONT, m))
    (hexit : a0 ≠ CMD_EXIT)
    (hfq : ent.func_q = Option.some g)
    (hlen : ¬ q.length > 100)
    (hmyq : st.myq = Option.none) :
    handleInput reg st q orc k d =
      Except.ok ({ st with msgv := m }, q ++ [⟨a0 :: rest, Option.none⟩], k,
        [HEv.enq (a0 :: rest) Option.none, HEv.sent RC_OK m]) := by
  have hc1 : (decide ((bstrip d).length = 0) || decide (bstrip d = [4])) = false := by
    simp [List.length_eq_zero, h0, h4]
  simp only [handleInput, hc1, Bool.false_eq_true, if_false, hdec, htok, hlook, hfi, hval,
    queuePhase, check_and_put, hfq, hlen, hmyq, hexit, RC_CONT, RC_ACCEPT, CMD_EXIT,
    if_true, ne_eq, ite_false, ite_true]
  have hca : ¬ (("CONTINUE" : String) = "ACCEPT") := by decide
  have hexit2 : ¬ (a0 = "exit") := by simpa [CMD_EXIT] using hexit
  simp [hca, hexit2]

theorem handleInput_unknown (reg : Registry) (st : ConnSt) (q : List QEntry)
    (orc : Nat → String × Msg) (k : Nat) (d : List Nat) (cs : List Char)
    (a0 : String) (rest : List String)
    (h0 : bstrip d ≠ [])
    (h4 : bstrip d ≠ [4])
    (hdec : utf8Decode (bstrip d) = Option.some cs)
    (htok : tokenize cs = a0 :: rest)
    (hlook : dictGet reg a0 = Option.none) :
    handleInput reg st q orc k d =
      Except.ok (st, q, k, [HEv.sent RC_NG (Msg.str (a0 ++ ": no such command .. ignored"))]) := by
  have hc1 : (decide ((bstrip d).length = 0) || decide (bstrip d = [4])) = false := by
    simp [List.length_eq_zero, h0, h4]
  simp only [handleInput, hc1, Bool.false_eq_true, if_false, hdec, htok, hlook]

theorem handleInput_raise (reg : Registry) (st : ConnSt) (q : List QEntry)
    (orc : Nat → String × Msg) (k : Nat) (d : List Nat) (cs : List Char)
    (a0 : String) (rest : List String) (ent : CmdEntry) (fi : Handler) (err : PyErr)
    (h0 : bstrip d ≠ [])
    (h4 : bstrip d ≠ [4])
    (hdec : utf8Decode (bstrip d) = Option.some cs)
    (htok : tokenize cs = a0 :: rest)
    (hlook : dictGet reg a0 = Option.some ent)
    (hfi : ent.func_i = Option.some fi)
    (hval : fi (helpView reg) (a0 :: rest) = Except.error err) :
    handleInput reg st q orc k d = Except.error err := by
  have hc1 : (decide ((bstrip d).length = 0) || decide (bstrip d = [4])) = false := by
    simp [List.length_eq_zero, h0, h4]
  simp only [handleInput, hc1, Bool.false_eq_true, if_false, hdec, htok, hlook, hfi, hval]

theorem handleInput_busy (reg : Registry) (st : ConnSt) (q : List QEntry)
    (orc : Nat → String × Msg) (k : Nat) (d : List Nat) (cs : List Char)
    (a0 : String) (rest : List String) (ent : CmdEntry) (g : Handler)
    (h0 : bstrip d ≠ [])
    (h4 : bstrip d ≠ [4])
    (hdec : utf8Decode (bstrip d) = Option.some cs)
    (htok : tokenize cs = a0 :: rest)
    (hlook : dictGet reg a0 = Option.some ent)
    (hfi : ent.func_i = Option.none)
    (hfq : ent.func_q = Option.some g)
    (hlen : q.length > 100) :
    handleInput reg st q orc k d =
      Except.ok (st, q, k,
        [HEv.sent RC_NG (Msg.str ("qsize=" ++ toString q.length ++ ": server busy"))]) := by
  have hc1 : (decide ((bstrip d).length = 0) || decide (bstrip d = [4])) = false := by
    simp [List.length_eq_zero, h0, h4]
  simp only [handleInput, hc1, Bool.false_eq_true, if_false, hdec, htok, hlook, hfi,
    queuePhase, check_and_put, hfq, hlen, if_true]

theorem handleInput_enq (reg : Registry) (st : ConnSt) (q : List QEntry)
    (orc : Nat → String × Msg) (k : Nat) (d : List Nat) (cs : List Char)
    (a0 : String) (rest : List String) (ent : CmdEntry) (g : Handler)
    (h0 : bstrip d ≠ [])
    (h4 : bstrip d ≠ [4])
    (hdec : utf8Decode (bstrip d) = Option.some cs)
    (htok : tokenize cs = a0 :: rest)
    (hlook : dictGet reg a0 = Option.some ent)
    (hfi : ent.func_i = Option.none)
    (hfq : ent.func_q = Option.some g)
    (hlen : ¬ q.length > 100) :
    ∃ k2 evs, handleInput reg st q orc k d =
      Except.ok (st, q ++ [⟨a0 :: rest, st.myq⟩], k2, evs) := by
  have hc1 : (decide ((bstrip d).length = 0) || decide (bstrip d = [4])) = false := by
    simp [List.length_eq_zero, h0, h4]
  cases hmq : st.myq with
  | none =>
    refine ⟨k, [HEv.enq (a0 :: rest) Option.none, HEv.sent RC_OK st.msgv], ?_⟩
    simp only [handleInput, hc1, Bool.false_eq_true, if_false, hdec, htok, hlook, hfi,
      queuePhase, check_and_put, hfq, hlen, hmq, if_true]
  | some c =>
    refine ⟨k + 1,
      [HEv.enq (a0 :: rest) (Option.some c), HEv.wait k, HEv.sent (orc k).1 (orc k).2], ?_⟩
    simp only [handleInput, hc1, Bool.false_eq_true, if_false, hdec, htok, hlook, hfi,
      queuePhase, check_and_put, hfq, hlen, hmq, if_true]

theorem qrun_cons (s : List QEntry × List QEntry) (o : QOp) (ops : List QOp) :
    qrun s (o :: ops) = qrun (qstep s o) ops := rfl

theorem qrun_invariant : ∀ (ops : List QOp) (p l : List QEntry),
    (qrun (p, l) ops).2 ++ (qrun (p, l) ops).1 = l ++ p ++ submittedOf ops := by
  intro ops
  induction ops with
  | nil =>
    intro p l
    simp [qrun, submittedOf]
  | cons o ops ih =>
    intro p l
    cases o with
    | submit e =>
      rw [qrun_cons]
      have hstep : qstep (p, l) (QOp.submit e) = (p ++ [e], l) := by cases p <;> rfl
      rw [hstep, ih]
      simp [submittedOf, List.filterMap_cons]
    | take =>
      rw [qrun_cons]
      cases p with
      | nil =>
        have hstep : qstep (([] : List QEntry), l) QOp.take = ([], l) := rfl
        rw [hstep, ih]
        simp [submittedOf, List.filterMap_cons]
      | cons x p2 =>
        have hstep : qstep (x :: p2, l) QOp.take = (p2, l ++ [x]) := rfl
        rw [hstep, ih]
        simp [submittedOf, List.filterMap_cons]

/-!  Claim theorems. -/

/-- C1 counterexample.  The claim asserts that every CONTINUE-class
submission receives exactly one reply, the genuine worker result or the
drain-forced terminated NG, for every connection history including one
with an earlier ACCEPT-class command.  On the code this fails: line 421
sets the reply channel _myq to None on ACCEPT and nothing ever restores
it, so on the history [shutdown9999, sleep 1] the CONTINUE-class sleep
submission is enqueued with no reply channel, the handler itself answers
(OK, sleep_sec=1.0) at line 457, and neither the worker nor the drain
ever posts anything for it — the genuine worker result
(OK, sleep: sleep_sec=1.0) is discarded. -/
theorem claim1_counterexample :
    handlerRun regDefault orcD st0 [] 0 [bytesShut9999, bytesSleep1] =
      Except.ok (⟨true, Option.none, Msg.str "sleep_sec=1.0"⟩,
        [⟨["shutdown9999"], Option.none⟩, ⟨["sleep", "1"], Option.none⟩], 0,
        [HEv.enq ["shutdown9999"] Option.none, HEv.sent RC_OK (Msg.str "sleep_sec=0"),
         HEv.enq ["sleep", "1"] Option.none, HEv.sent RC_OK (Msg.str "sleep_sec=1.0")]) ∧
    serverRun regDefault
        [⟨["shutdown9999"], Option.none⟩, ⟨["sleep", "1"], Option.none⟩] = Except.ok [] ∧
    workerStep regDefault ⟨["sleep", "1"], Option.none⟩ =
      Except.ok (RC_OK, Msg.str "sleep: sleep_sec=1.0") ∧
    Msg.str "sleep_sec=1.0" ≠ Msg.str "sleep: sleep_sec=1.0" :=
  ⟨rfl, rfl, rfl, by decide⟩

/-- C1 amended.  While the connection still owns its reply channel, a
CONTINUE-class input is enqueued with that channel and the handler blocks
and relays the received reply; once an ACCEPT-class command has set the
channel to None it stays None forever, and a later CONTINUE-class input
is enqueued with no channel and answered immediately with OK and the
immediate message.  Every entry that does carry a channel receives, over
the worker run followed by the drain of end(), exactly one post — the
genuine func_q result or (NG, terminated) — provided no queued handler
raises and the pending channels are distinct (each waiting connection
blocks, so its channel is pending at most once). -/
theorem claim1_amended :
    (∀ (reg : Registry) (st : ConnSt) (q : List QEntry) (orc : Nat → String × Msg)
        (k : Nat) (d : List Nat) (cs : List Char) (a0 : String) (rest : List String)
        (ent : CmdEntry) (fi g : Handler) (m : Msg) (c : Nat),
        bstrip d ≠ [] → bstrip d ≠ [4] →
        utf8Decode (bstrip d) = Option.some cs →
        tokenize cs = a0 :: rest →
        dictGet reg a0 = Option.some ent →
        ent.func_i = Option.some fi →
        fi (helpView reg) (a0 :: rest) = Except.ok (RC_CONT, m) →
        a0 ≠ CMD_EXIT →
        ent.func_q = Option.some g →
        ¬ q.length > 100 →
        st.myq = Option.some c →
        handleInput reg st q orc k d =
          Except.ok ({ st with msgv := m }, q ++ [⟨a0 :: rest, Option.some c⟩], k + 1,
            [HEv.enq (a0 :: rest) (Option.some c), HEv.wait k,
             HEv.sent (orc k).1 (orc k).2])) ∧
    (∀ (reg : Registry) (st : ConnSt) (q : List QEntry) (orc : Nat → String × Msg)
        (k : Nat) (d : List Nat) (cs : List Char) (a0 : String) (rest : List String)
        (ent : CmdEntry) (fi g : Handler) (m : Msg),
        bstrip d ≠ [] → bstrip d ≠ [4] →
        utf8Decode (bstrip d) = Option.some cs →
        tokenize cs = a0 :: rest →
        dictGet reg a0 = Option.some ent →
        ent.func_i = Option.some fi →
        fi (helpView reg) (a0 :: rest) = Except.ok (RC_CONT, m) →
        a0 ≠ CMD_EXIT →
        ent.func_q = Option.some g →
        ¬ q.length > 100 →
        st.myq = Option.none →
        handleInput reg st q orc k d =
          Except.ok ({ st with msgv := m }, q ++ [⟨a0 :: rest, Option.none⟩], k,
            [HEv.enq (a0 :: rest) Option.none, HEv.sent RC_OK m])) ∧
    (∀ (reg : Registry) (st : ConnSt) (q : List QEntry) (orc : Nat → String × Msg)
        (k : Nat) (d : List Nat) (st' : ConnSt) (q' : List QEntry) (k' : Nat)
        (evs : List HEv),
        st.myq = Option.none →
        handleInput reg st q orc k d = Except.ok (st', q', k', evs) →
        st'.myq = Option.none) ∧
    (∀ (reg : Registry) (q : List QEntry),
        (∀ e ∈ q, (workerStep reg e).isOk = true) →
        (chans q).Nodup →
        ∃ posts, serverRun reg q = Except.ok posts ∧
          ∀ e ∈ q, ∀ c, e.repq = Option.some c →
            posts.countP (fun p => p.1 == c) = 1 ∧
            ∀ p ∈ posts, p.1 = c →
              workerStep reg e = Except.ok p.2 ∨
                p.2 = (RC_NG, Msg.str "terminated")) := by
  refine ⟨handleInput_cont_some, handleInput_cont_none, ?_, serverRun_delivery⟩
  intro reg st q orc k d st' q' k' evs hmq h
  cases handleInput_myq reg st q orc k d st' q' k' evs h with
  | inl he => rw [he, hmq]
  | inr he => exact he

/-- C1 witness: the CONTINUE branch of claim1_amended applied to the
default command set at the line sleep 1 with the channel still present,
and the delivery branch applied to the resulting one-entry queue. -/
theorem claim1_witness :
    handleInput regDefault ⟨true, Option.some 5, Msg.none⟩ [] orcD 0 bytesSleep1 =
      Except.ok (⟨true, Option.some 5, Msg.str "sleep_sec=1.0"⟩,
        [⟨["sleep", "1"], Option.some 5⟩], 1,
        [HEv.enq ["sleep", "1"] (Option.some 5), HEv.wait 0,
         HEv.sent RC_OK Msg.none]) ∧
    (∃ posts, serverRun regDefault [⟨["sleep", "1"], Option.some 5⟩] = Except.ok posts ∧
      ∀ e ∈ [(⟨["sleep", "1"], Option.some 5⟩ : QEntry)], ∀ c, e.repq = Option.some c →
        posts.countP (fun p => p.1 == c) = 1 ∧
        ∀ p ∈ posts, p.1 = c →
          workerStep regDefault e = Except.ok p.2 ∨
            p.2 = (RC_NG, Msg.str "terminated")) := by
  constructor
  · exact claim1_amended.1 regDefault ⟨true, Option.some 5, Msg.none⟩ [] orcD 0 bytesSleep1
      ("sleep 1".toList) "sleep" ["1"]
      ⟨Option.some cmd_i_sleep, Option.some cmd_q_sleep, "sleep"⟩ cmd_i_sleep cmd_q_sleep
      (Msg.str "sleep_sec=1.0") 5
      (by decide) (by decide) (by decide) (by decide) rfl rfl rfl (by decide) rfl
      (by decide) rfl
  · exact claim1_amended.2.2.2 regDefault [⟨["sleep", "1"], Option.some 5⟩]
      (by decide) (by decide)

/-- C2: queued handlers execute one at a time in global FIFO submission
order.  The worker (the single thread created at tcpcmd.py lines 542-543)
is the only consumer of the FIFO queue.Queue, and it finishes each entry
before taking the next, so its execution log after any interleaving of
puts and takes is exactly a prefix of the submission order: the log plus
the still-pending entries equals the submitted sequence. -/
theorem claim2_fifo_order (ops : List QOp) :
    (qrun ([], []) ops).2 ++ (qrun ([], []) ops).1 = submittedOf ops ∧
    ∃ pending, submittedOf ops = (qrun ([], []) ops).2 ++ pending := by
  have h := qrun_invariant ops [] []
  simp only [List.nil_append] at h
  exact ⟨h, (qrun ([], []) ops).1, h.symm⟩

/-- C3 counterexample.  The claim asserts handler errors are caught at
the dispatch boundary and converted to NG, never terminating the worker.
But cmd_worker (tcpcmd.py line 560) calls func_q with no try/except: a
queued handler that raises makes the whole worker run raise — the loop
terminates without the shutdown command and without any NG post. -/
theorem claim3_counterexample :
    cmd_worker boomReg boomQ = Except.error (PyErr.exc "boom") ∧
    (cmd_worker boomReg boomQ).isOk = false ∧
    serverRun boomReg boomQ = Except.error (PyErr.exc "boom") :=
  ⟨rfl, rfl, rfl⟩

/-- C3 amended.  An error raised inside a queued handler is not caught at
the dispatch boundary: it propagates out of the worker loop, which
terminates with that error and posts no reply; likewise an error raised
by an immediate handler propagates out of handle() (line 409 has no
try/except), aborting the connection instead of sending NG.  When no
queued handler raises, the worker loop runs to the shutdown entry or the
end of the queue. -/
theorem claim3_amended :
    (∀ (reg : Registry) (e : QEntry) (rest : List QEntry) (err : PyErr),
        workerStep reg e = Except.error err →
        cmd_worker reg (e :: rest) = Except.error err) ∧
    (∀ (reg : Registry) (q : List QEntry),
        (∀ e ∈ q, (workerStep reg e).isOk = true) →
        cmd_worker reg q = Except.ok (okPosts reg (consumedPart q), leftoverPart q)) ∧
    (∀ (reg : Registry) (st : ConnSt) (q : List QEntry) (orc : Nat → String × Msg)
        (k : Nat) (d : List Nat) (cs : List Char) (a0 : String) (rest : List String)
        (ent : CmdEntry) (fi : Handler) (err : PyErr),
        bstrip d ≠ [] → bstrip d ≠ [4] →
        utf8Decode (bstrip d) = Option.some cs →
        tokenize cs = a0 :: rest →
        dictGet reg a0 = Option.some ent →
        ent.func_i = Option.some fi →
        fi (helpView reg) (a0 :: rest) = Except.error err →
        handleInput reg st q orc k d = Except.error err) := by
  refine ⟨?_, cmd_worker_eq, handleInput_raise⟩
  intro reg e rest err h
  unfold cmd_worker
  rw [h]

/-- C3 witness: claim3_amended applied to the raising boom handler and to
a run of the default commands in which nothing raises. -/
theorem claim3_witness :
    cmd_worker boomReg (⟨["boom"], Option.some 0⟩ :: []) = Except.error (PyErr.exc "boom") ∧
    cmd_worker regDefault [⟨["sleep", "2"], Option.some 0⟩] =
      Except.ok (okPosts regDefault (consumedPart [⟨["sleep", "2"], Option.some 0⟩]),
        leftoverPart [⟨["sleep", "2"], Option.some 0⟩]) := by
  constructor
  · exact claim3_amended.1 boomReg ⟨["boom"], Option.some 0⟩ [] (PyErr.exc "boom") rfl
  · exact claim3_amended.2.1 regDefault [⟨["sleep", "2"], Option.some 0⟩] (by decide)

/-- C4 counterexample.  The claim asserts that registering an existing
name fails with DuplicateCommand.  The code has no duplicate check at
all: add_cmd fails, but with AttributeError on the undefined class
attribute HELP_STR (tcpcmd.py line 151), the same failure it gives a
fresh name, and AttributeError is not the DuplicateCommand the spec
names. -/
theorem claim4_counterexample :
    add_cmd [(CMD_HELP, ⟨Option.some cmd_i_help, Option.none, "command help"⟩)]
        CMD_HELP (Option.some cmd_i_help) Option.none "command help" =
      Except.error (PyErr.attributeError "HELP_STR") ∧
    PyErr.attributeError "HELP_STR" ≠ PyErr.duplicateCommand :=
  ⟨rfl, by decide⟩

/-- C4 amended.  add_cmd performs no duplicate-name check and never
raises DuplicateCommand; as written, every call — name present or not —
evaluates the undefined attribute HELP_STR inside the dict literal and
fails with AttributeError before the store, leaving the registry
unchanged (the caller keeps the old dict). -/
theorem claim4_amended (reg : Registry) (name : String) (fi fq : Option Handler)
    (help_str : String) :
    add_cmd reg name fi fq help_str = Except.error (PyErr.attributeError "HELP_STR") := rfl

/-- C5 counterexample.  The claim asserts the default registry exposes a
built-in command named shutdown, so the line shutdown is a known command.
In the code the shutdown command constant CMD_SHUTDOWN is the string
shutdown9999 (tcpcmd.py line 89); shutdown is not among the names
Cmd.__init__ registers, and a client line shutdown gets the
unknown-command NG. -/
theorem claim5_counterexample :
    CMD_SHUTDOWN = "shutdown9999" ∧
    ¬ ("shutdown" ∈ Cmd_init_names) ∧
    handleInput regDefault st0 [] orcD 0 bytesShutdown =
      Except.ok (st0, [], 0,
        [HEv.sent RC_NG (Msg.str "shutdown: no such command .. ignored")]) :=
  ⟨rfl, by decide, rfl⟩

/-- C5 amended.  The built-in shutdown command is named shutdown9999, not
shutdown: its immediate handler cmd_i_shutdown with no argument returns
ACCEPT at once; the worker recognises an entry named CMD_SHUTDOWN
(shutdown9999) as the sentinel and stops after posting its reply, leaving
the rest of the queue to the drain; shutdown9999 is among the names
Cmd.__init__ registers (the registration itself fails on the HELP_STR
slip, see C9), while a line reading exactly shutdown is answered with the
unknown-command NG by any registry without that key. -/
theorem claim5_amended :
    (∀ hv : List (String × String),
        cmd_i_shutdown hv [CMD_SHUTDOWN] = Except.ok (RC_ACCEPT, Msg.str "sleep_sec=0")) ∧
    (∀ (reg : Registry) (e : QEntry) (rest : List QEntry) (v : String × Msg),
        isShutEntry e = true → workerStep reg e = Except.ok v →
        cmd_worker reg (e :: rest) =
          Except.ok ((match e.repq with
            | Option.some c => ([(c, v)] : List Post)
            | Option.none => []), rest)) ∧
    ("shutdown9999" ∈ Cmd_init_names ∧ CMD_SHUTDOWN = "shutdown9999") ∧
    (∀ (reg : Registry) (st : ConnSt) (q : List QEntry) (orc : Nat → String × Msg) (k : Nat),
        dictGet reg "shutdown" = Option.none →
        handleInput reg st q orc k bytesShutdown =
          Except.ok (st, q, k,
            [HEv.sent RC_NG (Msg.str ("shutdown" ++ ": no such command .. ignored"))])) := by
  refine ⟨fun hv => rfl, ?_, ⟨by decide, rfl⟩, ?_⟩
  · intro reg e rest v hsh hv
    unfold cmd_worker
    rw [hv, hsh]
    simp
  · intro reg st q orc k hlook
    exact handleInput_unknown reg st q orc k bytesShutdown ("shutdown".toList) "shutdown" []
      (by decide) (by decide) (by decide) (by decide) hlook

/-- C5 witness: claim5_amended applied to the default command set — the
worker stops at a shutdown9999 entry, posting its genuine reply and
leaving the rest of the queue, and a connection over the default names
answers the line shutdown with the unknown-command NG. -/
theorem claim5_witness :
    cmd_worker regDefault
        [⟨["shutdown9999"], Option.some 3⟩, ⟨["sleep", "1"], Option.some 4⟩] =
      Except.ok ([(3, (RC_OK, Msg.str "shutdown9999: sleep_sec=0"))],
        [⟨["sleep", "1"], Option.some 4⟩]) ∧
    handleInput regDefault st0 [] orcD 0 bytesShutdown =
      Except.ok (st0, [], 0,
        [HEv.sent RC_NG (Msg.str ("shutdown" ++ ": no such command .. ignored"))]) := by
  constructor
  · have h := claim5_amended.2.1 regDefault ⟨["shutdown9999"], Option.some 3⟩
      [⟨["sleep", "1"], Option.some 4⟩] (RC_OK, Msg.str "shutdown9999: sleep_sec=0") rfl rfl
    simpa using h
  · exact claim5_amended.2.2.2 regDefault st0 [] orcD 0 rfl

/-- C6: the claim says a UTF-8 decode failure is only logged, the input
is discarded and the connection handler keeps reading.  The dispatch
handler of tcpcmd.py contradicts this — and its own log text, which says
ignored — by sending an NG and then breaking out of the read loop (lines
380-384), closing the connection on the first failure; the plain handler
of server.py (lines 152-156) does continue, matching the claim.  At the
invalid byte 0xFF: the tcpcmd handler ends with _active false after one
NG reply, the server.py handler continues. -/
theorem claim6_decode_failure :
    handleInput ([] : Registry) st0 [] orcD 0 [255] =
      Except.ok (⟨false, Option.some 0, Msg.none⟩, [], 0,
        [HEv.sent RC_NG (Msg.str decode_err_note)]) ∧
    srvHandleInput [255] = SrvRes.continued ∧
    utf8Decode [255] = Option.none :=
  ⟨rfl, rfl, rfl⟩

/-- C7 counterexample.  The claim asserts every character below 0x20 is
removed before tokenizing, so no handler argument contains one.  The
dispatch handler only strips whitespace at the ends (bytes.strip) and
splits on whitespace: the line cmd a&#1;b keeps its 0x01 byte, which
reaches the immediate handler inside the second argument, as the
reflecting handler shows. -/
theorem claim7_counterexample :
    handleInput reflectReg st0 [] orcD 0 bytesCtrl =
      Except.ok (⟨true, Option.some 0, Msg.lst [("cmd", "cmd"), (ctrlArg, ctrlArg)]⟩, [], 0,
        [HEv.sent RC_OK (Msg.lst [("cmd", "cmd"), (ctrlArg, ctrlArg)])]) ∧
    Char.ofNat 1 ∈ ctrlArg.data ∧
    (Char.ofNat 1).toNat < 0x20 :=
  ⟨rfl, by decide, by decide⟩

/-- C7 amended.  Only the plain server.py handler removes all characters
below 0x20 (srvPrintable).  The dispatch handler of tcpcmd.py merely
trims ASCII whitespace at the ends and splits on whitespace, so the args
it passes to handlers never contain ASCII whitespace characters
(0x09-0x0D and 0x20), but any other character below 0x20 passes through
unchanged. -/
theorem claim7_amended :
    (∀ cs : List Char, ∀ c ∈ srvPrintable cs, ¬ c.toNat < 0x20) ∧
    (∀ cs : List Char, ∀ w ∈ pySplit cs, ∀ c ∈ w, isPySpace c = false) ∧
    (∀ cs : List Char, ∀ w ∈ tokenize cs, ∀ c ∈ w.data, isPySpace c = false) := by
  refine ⟨?_, pySplit_no_space, ?_⟩
  · intro cs c hc
    have h2 := (List.mem_filter.mp hc).2
    simp only [decide_eq_true_eq] at h2
    omega
  · intro cs w hw c hc
    obtain ⟨w0, hw0, heq⟩ := List.mem_map.mp hw
    rw [← heq] at hc
    exact pySplit_no_space cs w0 hw0 c hc

/-- C7 witness: claim7_amended applied to concrete characters — the
server.py filter keeps a above 0x20, and the first word of the split of
ab cd contains no whitespace character. -/
theorem claim7_witness :
    (¬ (Char.ofNat 97).toNat < 0x20) ∧ isPySpace (Char.ofNat 97) = false :=
  ⟨claim7_amended.1 [Char.ofNat 97] (Char.ofNat 97) (by decide),
   claim7_amended.2.1 ([Char.ofNat 97, Char.ofNat 98, Char.ofNat 32, Char.ofNat 99])
     [Char.ofNat 97, Char.ofNat 98] (by decide) (Char.ofNat 97) (by decide)⟩

/-- C8: the depth check of handle() (tcpcmd.py lines 437-452) reads qsize
once; when the observed depth exceeds 100 the client at once gets the NG
busy reply and nothing is enqueued, and when it is at most 100 the entry
is appended to the queue.  The same holds through a full handler
iteration of a queued-only command. -/
theorem claim8_backpressure :
    (∀ (q : List QEntry) (args : List String) (myq : Option Nat), q.length > 100 →
        check_and_put q args myq =
          (q, Option.some (HEv.sent RC_NG
            (Msg.str ("qsize=" ++ toString q.length ++ ": server busy"))))) ∧
    (∀ (q : List QEntry) (args : List String) (myq : Option Nat), q.length ≤ 100 →
        check_and_put q args myq = (q ++ [⟨args, myq⟩], Option.none)) ∧
    (∀ (reg : Registry) (st : ConnSt) (q : List QEntry) (orc : Nat → String × Msg)
        (k : Nat) (d : List Nat) (cs : List Char) (a0 : String) (rest : List String)
        (ent : CmdEntry) (g : Handler),
        bstrip d ≠ [] → bstrip d ≠ [4] →
        utf8Decode (bstrip d) = Option.some cs →
        tokenize cs = a0 :: rest →
        dictGet reg a0 = Option.some ent →
        ent.func_i = Option.none →
        ent.func_q = Option.some g →
        q.length > 100 →
        handleInput reg st q orc k d =
          Except.ok (st, q, k,
            [HEv.sent RC_NG (Msg.str ("qsize=" ++ toString q.length ++ ": server busy"))])) ∧
    (∀ (reg : Registry) (st : ConnSt) (q : List QEntry) (orc : Nat → String × Msg)
        (k : Nat) (d : List Nat) (cs : List Char) (a0 : String) (rest : List String)
        (ent : CmdEntry) (g : Handler),
        bstrip d ≠ [] → bstrip d ≠ [4] →
        utf8Decode (bstrip d) = Option.some cs →
        tokenize cs = a0 :: rest →
        dictGet reg a0 = Option.some ent →
        ent.func_i = Option.none →
        ent.func_q = Option.some g →
        ¬ q.length > 100 →
        ∃ k2 evs, handleInput reg st q orc k d =
          Except.ok (st, q ++ [⟨a0 :: rest, st.myq⟩], k2, evs)) := by
  refine ⟨?_, ?_, handleInput_busy, handleInput_enq⟩
  · intro q args myq h
    unfold check_and_put
    rw [if_pos h]
  · intro q args myq h
    unfold check_and_put
    rw [if_neg (by omega)]

/-- C8 witness: claim8_backpressure at a queue of depth 101 (rejected,
queue untouched) and at the empty queue (enqueued). -/
theorem claim8_witness :
    check_and_put (List.replicate 101 (⟨["x"], Option.none⟩ : QEntry)) ["y"] Option.none =
      (List.replicate 101 ⟨["x"], Option.none⟩,
        Option.some (HEv.sent RC_NG (Msg.str "qsize=101: server busy"))) ∧
    check_and_put [] ["y"] Option.none = ([⟨["y"], Option.none⟩], Option.none) := by
  constructor
  · have h := claim8_backpressure.1 (List.replicate 101 ⟨["x"], Option.none⟩)
      ["y"] Option.none (by decide)
    exact h
  · exact claim8_backpressure.2.1 [] ["y"] Option.none (by decide)

/-- C9: the help behaviour the claim describes is what cmd_i_help does —
no argument lists every registered command with its help text in
registration order, a registered name answers OK with its help text, an
unregistered one answers NG — but the code cannot reach it: add_cmd
stores the help text under the key self.HELP_STR, an attribute class Cmd
never defines, so the very first registration in Cmd.__init__
(add_cmd of sleep) raises AttributeError and the default registry is
never built, while the reader cmd_i_help expects the key help. -/
theorem claim9_help_and_bug :
    (∀ hv : List (String × String),
        cmd_i_help hv ["help"] = Except.ok (RC_OK, Msg.lst hv)) ∧
    (∀ (hv : List (String × String)) (a h : String), hv.lookup a = Option.some h →
        cmd_i_help hv ["help", a] = Except.ok (RC_OK, Msg.str h)) ∧
    (∀ (hv : List (String × String)) (a : String), hv.lookup a = Option.none →
        cmd_i_help hv ["help", a] = Except.ok (RC_NG, Msg.str (a ++ ": no such command"))) ∧
    Cmd_init = Except.error (PyErr.attributeError "HELP_STR") := by
  refine ⟨fun hv => rfl, ?_, ?_, rfl⟩
  · intro hv a h hl
    simp only [cmd_i_help]
    rw [if_pos (by simp)]
    have hg : (["help", a].getD 1 "") = a := rfl
    rw [hg, hl]
  · intro hv a hl
    simp only [cmd_i_help]
    rw [if_pos (by simp)]
    have hg : (["help", a].getD 1 "") = a := rfl
    rw [hg, hl]

/-- C9 witness: claim9_help_and_bug applied to a one-command help view:
help of a registered name answers OK with its text, of an unknown name
answers NG. -/
theorem claim9_witness :
    cmd_i_help [("sleep", "sleep")] ["help", "sleep"] =
      Except.ok (RC_OK, Msg.str "sleep") ∧
    cmd_i_help [("sleep", "sleep")] ["help", "zz"] =
      Except.ok (RC_NG, Msg.str "zz: no such command") :=
  ⟨claim9_help_and_bug.2.1 [("sleep", "sleep")] "sleep" "sleep" (by decide),
   claim9_help_and_bug.2.2.1 [("sleep", "sleep")] "zz" (by decide)⟩

/-- C10: the shared queue is queue.Queue() with no capacity bound
(maxsize 0), whose non-blocking put never raises Full; the ceiling is
enforced only by the qsize read preceding the put, so one submission is
enqueued exactly when the depth it observed was at most 100; and because
check and put are separate unlocked steps, two connections that both
pass the check over a depth-100 queue drive the depth to 102, beyond the
ceiling. -/
theorem claim10_queue_unbounded :
    cmdq_init.maxsize = 0 ∧
    (∀ (items : List QEntry) (e : QEntry),
        PyQueue.put_nowait ⟨0, items⟩ e = Except.ok ⟨0, items ++ [e]⟩) ∧
    (∀ (q : List QEntry) (args : List String) (myq : Option Nat),
        (check_and_put q args myq).1 = q ++ [⟨args, myq⟩] ↔ q.length ≤ 100) ∧
    (raceRun (raceQ0, raceConns) raceSched).1.length = 102 ∧ 100 < 102 := by
  refine ⟨rfl, fun items e => rfl, ?_, by decide, by decide⟩
  intro q args myq
  constructor
  · intro h
    by_contra hgt
    push_neg at hgt
    unfold check_and_put at h
    rw [if_pos (by omega)] at h
    have h2 := congrArg List.length h
    simp at h2
  · intro hle
    unfold check_and_put
    rw [if_neg (by omega)]
